import Mathlib

/-!
Verification of the ShuffleRouter delivery engine against its specification.

The Rust sources are embedded shallowly:
* `src/buffer.rs` — `Buffer`, `BufferPool`;
* `src/packet.rs` — `PacketError`, `Packet`, its `PartialEq`/`Eq`/`Ord`
  implementations, `get_dst`, `Packet.create`;
* `src/main.rs` — `process_queue` and the per-datagram body of the receive
  loop (`ingest_step`), plus the receive `match` (`recv_match`).

Machine integers are modelled as `Nat` (all arithmetic in the sources stays
far from overflow: lengths are at most 65535, ports below 65536, times are
`Instant`s modelled as nanosecond counts). Byte arrays are modelled as total
functions `Nat → Nat` together with an explicit logical length, mirroring the
`[u8; 65535]` array plus `len` field of `Buffer`; a Rust slice `&[u8]` is a
(pointer, length) view, modelled by `Slice`.
-/

namespace ShuffleRouter

/-! ### buffer.rs -/

/-- `const MAX_BUFFER_SIZE: usize = u16::max_value() as usize;` -/
def MAX_BUFFER_SIZE : Nat := 65535

/-- `struct Buffer { buf: [u8; MAX_BUFFER_SIZE], len: usize }`.
The array is modelled as a total function from index to byte value; only
indices below `MAX_BUFFER_SIZE` are ever touched by the embedded code. -/
structure Buffer where
  buf : Nat → Nat
  len : Nat

/-- A Rust byte slice `&[u8]`: a view with a base byte function and a length. -/
structure Slice where
  byte : Nat → Nat
  len : Nat

/-- `Buffer::get`: `&self.buf[..self.len]` — the valid-length view of the array. -/
def Buffer.get (b : Buffer) : Slice :=
  ⟨b.buf, b.len⟩

/-- `Buffer::set_len`: `self.len = len` (no bounds check in the source). -/
def Buffer.set_len (b : Buffer) (len : Nat) : Buffer :=
  { b with len := len }

/-- `Buffer::len`. -/
def Buffer.length (b : Buffer) : Nat :=
  b.len

/-- `impl Default for Buffer`: a zero-filled array with `len = MAX_BUFFER_SIZE`. -/
def Buffer.default : Buffer :=
  ⟨fun _ => 0, MAX_BUFFER_SIZE⟩

/-- `struct BufferPool { queue: Vec<Buffer> }`. `Vec` is modelled as a list whose
last element is the vector's back (`push` appends, `pop` removes the back). -/
structure BufferPool where
  queue : List Buffer

/-- `BufferPool::get_buffer`: a fresh default buffer when the pool is empty,
otherwise `queue.pop().unwrap()` — the most recently pushed buffer. The model
returns the drawn buffer together with the updated pool. -/
def BufferPool.get_buffer (p : BufferPool) : Buffer × BufferPool :=
  if p.queue.isEmpty then
    (Buffer.default, p)
  else
    (p.queue.getLastD Buffer.default, ⟨p.queue.dropLast⟩)

/-- `BufferPool::recycle_byffer`: reset the buffer's logical length to
`MAX_BUFFER_SIZE` and push it onto the pool's vector. -/
def BufferPool.recycle_byffer (p : BufferPool) (buffer : Buffer) : BufferPool :=
  ⟨p.queue.concat (buffer.set_len MAX_BUFFER_SIZE)⟩

/-! ### packet.rs -/

/-- `enum PacketError` from packet.rs (the source spells it `InvalidLenth`). -/
inductive PacketError where
  | InvalidLenth (needed : Nat)
  | NotEnoughData
  | Unknown
deriving DecidableEq

/-- An IPv4 address as its four octets (`std::net::Ipv4Addr`). -/
structure Ipv4Addr where
  o0 : Nat
  o1 : Nat
  o2 : Nat
  o3 : Nat
deriving DecidableEq

/-- `std::net::SocketAddrV4`: an IPv4 address and a 16-bit port. -/
structure SockAddrV4 where
  ip : Ipv4Addr
  port : Nat
deriving DecidableEq

/-- `struct Packet { dst: SocketAddrV4, data: Buffer, exit_time: Instant }`.
`Instant` is modelled as a `Nat` time stamp. -/
structure Packet where
  dst : SockAddrV4
  data : Buffer
  exit_time : Nat

/-- `impl PartialEq for Packet`: `self.exit_time.eq(&other.exit_time)` —
equality looks only at `exit_time`. -/
def Packet.beq (self other : Packet) : Bool :=
  self.exit_time == other.exit_time

/-- `impl Ord for Packet`: `other.exit_time.cmp(&self.exit_time)` — the
comparison of the time stamps, reversed. -/
def Packet.cmp (self other : Packet) : Ordering :=
  compare other.exit_time self.exit_time

/-- `get_dst` from packet.rs: run the nom parser `sockaddr` (4 address bytes via
`take(4)`, then a big-endian `u16` port via `be_u16`) on the slice. Both
combinators are from nom's `complete` family, which reports a too-short input
as `Err::Error`, never `Err::Incomplete`; the error handler therefore maps a
short slice to `PacketError::Unknown` (its `Incomplete` arms, producing
`NotEnoughData`/`InvalidLenth`, are unreachable). -/
def get_dst (data : Slice) : Except PacketError SockAddrV4 :=
  if data.len < 6 then
    .error .Unknown
  else
    .ok ⟨⟨data.byte 0, data.byte 1, data.byte 2, data.byte 3⟩,
         data.byte 4 * 256 + data.byte 5⟩

/-- `Packet::create`: parse the destination from `data.get()` — the buffer's
current valid-length view, parsed before `set_len(len)` runs — then overwrite
bytes 0..3 with `orig`'s address octets and bytes 4..5 with `orig`'s port in
big-endian order (the two `copy_from_slice` calls, folded into one function
update), set the logical length to `len`, and build the packet. -/
def Packet.create (orig : SockAddrV4) (data : Buffer) (len : Nat)
    (exit_time : Nat) : Except PacketError Packet :=
  match get_dst data.get with
  | .error e => .error e
  | .ok dst =>
      let rewritten : Buffer :=
        { data with
          buf := fun i =>
            if i = 0 then orig.ip.o0
            else if i = 1 then orig.ip.o1
            else if i = 2 then orig.ip.o2
            else if i = 3 then orig.ip.o3
            else if i = 4 then orig.port / 256
            else if i = 5 then orig.port % 256
            else data.buf i }
      .ok ⟨dst, rewritten.set_len len, exit_time⟩

/-- `Packet::get_duration_till_next`: `exit_time.saturating_duration_since(now)`. -/
def Packet.get_duration_till_next (p : Packet) (now : Nat) : Option Nat :=
  some (p.exit_time - now)

/-! ### The Delivery Queue -/

/-- Modelled from the spec: `src/queue.rs` (the `shufflerouter::queue::Queue`
imported by main.rs) is not among the sources. Per §4.3 it is a
"binary-heap-backed priority structure keyed by ascending `release_time`"
exposing `push`/`peek`/`pop`, and per §9 a max-heap primitive over `Packet`'s
(reversed) ordering; behaviourally `peek`/`pop` return a packet maximal in
`Packet.cmp`, i.e. of minimal `exit_time`. The model keeps the elements sorted
with the `Packet.cmp`-greatest (earliest-due) element first; `push` is ordered
insertion, `peek` reads the head, `pop` removes it. -/
abbrev Queue := List Packet

/-- The head-first ordering of the modelled queue: `a` precedes `b` when `a` is
not `Packet.cmp`-smaller than `b`, i.e. `a.exit_time ≤ b.exit_time`. -/
def queueOrder (a b : Packet) : Prop :=
  Packet.cmp a b ≠ Ordering.lt

instance (a b : Packet) : Decidable (queueOrder a b) :=
  inferInstanceAs (Decidable (Packet.cmp a b ≠ Ordering.lt))

instance : IsTotal Packet queueOrder :=
  ⟨fun a b => by
    unfold queueOrder Packet.cmp
    simp only [ne_eq, Nat.compare_eq_lt]
    omega⟩

instance : IsTrans Packet queueOrder :=
  ⟨fun a b c hab hbc => by
    unfold queueOrder Packet.cmp at *
    simp only [ne_eq, Nat.compare_eq_lt] at *
    omega⟩

/-- `Queue::push`. -/
def Queue.push (q : Queue) (p : Packet) : Queue :=
  List.orderedInsert queueOrder p q

/-- `Queue::peek`. -/
def Queue.peek (q : Queue) : Option Packet :=
  q.head?

/-- `Queue::pop`: the earliest-due packet, if any, and the remaining queue. -/
def Queue.pop (q : Queue) : Option Packet × Queue :=
  (q.head?, q.tail)

/-- `Queue::new`. -/
def Queue.new : Queue :=
  []

/-- The sequence obtained by popping the queue until it is empty
(`Queue.pop` of `p :: q` yields `(some p, q)`, of `[]` yields `(none, [])`). -/
def Queue.drain : Queue → List Packet
  | [] => []
  | p :: q => p :: Queue.drain q

/-! ### main.rs -/

/-- Outcome of one `socket.send_to` call inside `process_queue`. -/
inductive SendResult where
  | ok (len : Nat)
  | wouldBlock
  | err
deriving DecidableEq

/-- `process_queue` from main.rs: while the queue's head packet is due
(`p.exit_time <= now`), send it. On `Ok(len)`: count the bytes, accumulate
`now - exit_time` into `extra_delay`, pop the packet and recycle its buffer
("Only remove transmitted packets"), and continue. On a would-block error:
break out at once. On any other error: log a warning, add `0` bytes, and
continue the loop — the packet is not popped. The socket's successive
`send_to` outcomes are supplied as a finite trace, one entry consumed per
attempt; the model stops when the trace is exhausted. Returns
`(bytes_sent, extra_delay, queue, buffer_pool)`. -/
def process_queue (now : Nat) :
    List SendResult → Queue → BufferPool → Nat × Nat × Queue × BufferPool
  | _, [], pool => (0, 0, [], pool)
  | [], q, pool => (0, 0, q, pool)
  | r :: trace, p :: q, pool =>
    if p.exit_time ≤ now then
      match r with
      | .ok len =>
          let rest := process_queue now trace q (pool.recycle_byffer p.data)
          (len + rest.1, (now - p.exit_time) + rest.2.1, rest.2.2)
      | .wouldBlock => (0, 0, p :: q, pool)
      | .err => process_queue now trace (p :: q) pool
    else
      (0, 0, p :: q, pool)

/-- `socket.recv_from(buffer.get_mut())`: the datagram's bytes are written into
the front of the backing array; the buffer's `len` field is untouched. -/
def Buffer.recv_from (b : Buffer) (datagram : List Nat) : Buffer :=
  { b with buf := fun i => datagram.getD i (b.buf i) }

/-- One iteration of the receive loop in `main` (lines 211–249) after a
datagram has arrived: draw a buffer from the pool, receive the datagram into
it, then either drop it (Bernoulli sample — the buffer is simply discarded,
not recycled) or call `Packet::create` with `release_time = now + delay` and
push the packet on success; on a codec error only a warning is logged (the
buffer was moved into `create` and is discarded with the error). Returns the
updated pool and queue. -/
def ingest_step (dropSample : Bool) (delay : Nat) (now : Nat)
    (addr : SockAddrV4) (datagram : List Nat) (pool : BufferPool)
    (queue : Queue) : BufferPool × Queue :=
  let drawn := pool.get_buffer
  let buffer := drawn.1.recv_from datagram
  let pool := drawn.2
  if dropSample then
    (pool, queue)
  else
    match Packet.create addr buffer datagram.length (now + delay) with
    | .ok packet => (pool, queue.push packet)
    | .error _ => (pool, queue)

/-- `std::net::SocketAddr` as matched in the receive loop. -/
inductive SockAddr where
  | v4 (addr : SockAddrV4)
  | v6
deriving DecidableEq

/-- Outcome of one `socket.recv_from` call as seen by the receive loop. -/
inductive RecvResult where
  | ok (len : Nat) (addr : SockAddr)
  | wouldBlock
  | err
deriving DecidableEq

/-- What the receive `match` in `main` (lines 212–225) does with each
`recv_from` outcome: an IPv4 datagram proceeds; a would-block error breaks the
ingest loop; a sender that is not IPv4 hits `panic!("Unimplemented")` and any
other I/O error hits `panic!("Error while reading datagram.")` — both abort
the process mid-loop. -/
inductive RecvOutcome where
  | received (len : Nat) (addr : SockAddrV4)
  | stop
  | panics
deriving DecidableEq

def recv_match : RecvResult → RecvOutcome
  | .ok len (.v4 addr) => .received len addr
  | .ok _ .v6 => .panics
  | .wouldBlock => .stop
  | .err => .panics

/-- A concrete packet used by closed-form theorems: destined to 127.0.0.1:9,
carrying a 3-byte buffer, due at time 0. -/
def examplePacket : Packet :=
  ⟨⟨⟨127, 0, 0, 1⟩, 9⟩, Buffer.default.set_len 3, 0⟩

/-! ### Helper lemmas -/

/-- The queue's insertion order, read through the source `Ord` implementation:
`a` precedes `b` exactly when `a` is due no later than `b`. -/
theorem queueOrder_iff_exit_time_le (a b : Packet) :
    queueOrder a b ↔ a.exit_time ≤ b.exit_time := by
  unfold queueOrder Packet.cmp
  simp only [ne_eq, Nat.compare_eq_lt]
  omega

/-- Pushing preserves the queue's sortedness. -/
theorem sorted_push (q : Queue) (p : Packet) (h : List.Sorted queueOrder q) :
    List.Sorted queueOrder (q.push p) :=
  h.orderedInsert p q

/-- Any sequence of pushes starting from a sorted queue leaves it sorted. -/
theorem sorted_foldl_push (ps : List Packet) (q : Queue)
    (h : List.Sorted queueOrder q) :
    List.Sorted queueOrder (ps.foldl Queue.push q) := by
  induction ps generalizing q with
  | nil => exact h
  | cons p ps ih => exact ih (q.push p) (sorted_push q p h)

/-- Draining the modelled queue by repeated pops returns its elements in order. -/
theorem Queue.drain_eq (q : Queue) : Queue.drain q = q := by
  induction q with
  | nil => rfl
  | cons p q ih => simpa [Queue.drain] using ih

/-- For an index inside the list, `List.getD` does not depend on its default. -/
theorem getD_default_irrelevant (d : List Nat) (i : Nat) (h : i < d.length)
    (x y : Nat) : d.getD i x = d.getD i y := by
  rw [List.getD_eq_getElem d x h, List.getD_eq_getElem d y h]

/-! ### Claim theorems -/

/-- Claim C1, evaluation at the failing input: a 4-byte datagram
`[10, 11, 12, 13]` received into a fresh pool buffer does NOT fail header
parsing — `Packet::create` runs `get_dst` on `data.get()` before
`set_len(len)`, and a pool buffer's logical length is always 65535, so the
parser sees the full stale array, succeeds (destination `10.11.12.13:0`, the
port read from stale zero bytes), and the packet IS enqueued, contrary to the
claim. -/
theorem c1_short_datagram_is_enqueued :
    (Packet.create ⟨⟨10, 0, 0, 1⟩, 4000⟩
        (Buffer.default.recv_from [10, 11, 12, 13]) 4 107).toOption.map
      Packet.dst = some ⟨⟨10, 11, 12, 13⟩, 0⟩
    ∧ ((ingest_step false 7 100 ⟨⟨10, 0, 0, 1⟩, 4000⟩ [10, 11, 12, 13] ⟨[]⟩
        Queue.new).2.map Packet.dst = [⟨⟨10, 11, 12, 13⟩, 0⟩])
    ∧ (ingest_step false 7 100 ⟨⟨10, 0, 0, 1⟩, 4000⟩ [10, 11, 12, 13] ⟨[]⟩
        Queue.new).2.length = 1 :=
  ⟨rfl, rfl, rfl⟩

/-- Claim C2, counterexample: with one due packet at the head and a permanent
(non-would-block) transmit error, the drain pass leaves the packet in the
queue and returns nothing to the buffer pool — it is not popped and its buffer
is not recycled, contradicting the claim that a permanent error pops the
packet and recycles its buffer. -/
theorem c2_permanent_error_not_popped :
    (process_queue 0 [SendResult.err] [examplePacket] ⟨[]⟩).2.2.1 = [examplePacket]
    ∧ (process_queue 0 [SendResult.err] [examplePacket] ⟨[]⟩).2.2.2.queue = [] :=
  ⟨rfl, rfl⟩

/-- Claim C2, amended: whenever transmitting the due head packet fails with a
permanent (non-would-block) error, the drain logs a warning, adds zero bytes,
and continues the loop with the queue and pool unchanged — the packet stays at
the head (only transmitted packets are removed) and its buffer is not
recycled, so the very next iteration retries the same packet. -/
theorem c2_permanent_error_continues_with_head (now : Nat)
    (trace : List SendResult) (p : Packet) (q : Queue) (pool : BufferPool)
    (hdue : p.exit_time ≤ now) :
    process_queue now (SendResult.err :: trace) (p :: q) pool =
      process_queue now trace (p :: q) pool := by
  simp [process_queue, hdue]

/-- Witness for the amended C2 at a concrete due packet. -/
theorem c2_permanent_error_continues_with_head_witness :
    examplePacket.exit_time ≤ 0
    ∧ process_queue 0 [SendResult.err] [examplePacket] ⟨[]⟩ =
        process_queue 0 [] [examplePacket] ⟨[]⟩ :=
  ⟨by decide,
   c2_permanent_error_continues_with_head 0 [] examplePacket [] ⟨[]⟩ (by decide)⟩

/-- Claim C5: if a transmit attempt on the due head packet returns a would-block
error, draining stops immediately with zero bytes from that attempt and the
queue and pool exactly as they were: the head packet is not popped, not
duplicated, its buffer is not recycled, and the rest of the queue is
untouched, so the next writable-ready event retries it. -/
theorem c5_wouldblock_stops_drain (now : Nat) (trace : List SendResult)
    (p : Packet) (q : Queue) (pool : BufferPool) (hdue : p.exit_time ≤ now) :
    process_queue now (SendResult.wouldBlock :: trace) (p :: q) pool =
      (0, 0, p :: q, pool) := by
  simp [process_queue, hdue]

/-- Witness for C5 at a concrete due packet. -/
theorem c5_wouldblock_stops_drain_witness :
    examplePacket.exit_time ≤ 5
    ∧ process_queue 5 [SendResult.wouldBlock, SendResult.ok 3] [examplePacket] ⟨[]⟩ =
        (0, 0, [examplePacket], ⟨[]⟩) :=
  ⟨by decide,
   c5_wouldblock_stops_drain 5 [SendResult.ok 3] examplePacket [] ⟨[]⟩ (by decide)⟩

/-- Claim C6: for any sequence of pushes into the Delivery Queue, the sequence of
consecutive pops is pairwise non-decreasing in `exit_time` — no packet is ever
popped before another queued packet with a strictly smaller release time. -/
theorem c6_pops_time_ordered (ps : List Packet) :
    List.Pairwise (fun a b => a.exit_time ≤ b.exit_time)
      (Queue.drain (ps.foldl Queue.push Queue.new)) := by
  rw [Queue.drain_eq]
  exact (sorted_foldl_push ps Queue.new List.sorted_nil).imp
    (fun h => (queueOrder_iff_exit_time_le _ _).mp h)

/-- Witness for C6 at a concrete push sequence arriving out of time order. -/
theorem c6_pops_time_ordered_witness :
    List.Pairwise (fun a b => a.exit_time ≤ b.exit_time)
      (Queue.drain
        (([⟨⟨⟨1, 1, 1, 1⟩, 1⟩, Buffer.default, 30⟩,
           ⟨⟨⟨2, 2, 2, 2⟩, 2⟩, Buffer.default, 10⟩,
           ⟨⟨⟨3, 3, 3, 3⟩, 3⟩, Buffer.default, 20⟩] : List Packet).foldl
          Queue.push Queue.new)) :=
  c6_pops_time_ordered
    [⟨⟨⟨1, 1, 1, 1⟩, 1⟩, Buffer.default, 30⟩,
     ⟨⟨⟨2, 2, 2, 2⟩, 2⟩, Buffer.default, 10⟩,
     ⟨⟨⟨3, 3, 3, 3⟩, 3⟩, Buffer.default, 20⟩]

/-- Claim C9: `recycle_byffer` resets the buffer's logical length to full capacity
and pushes it; a following `get_buffer` returns exactly that most recently
recycled buffer and restores the pool; on an empty pool `get_buffer` returns
the fresh zero-filled full-capacity default buffer. `get_buffer` is a total
function — it never fails. -/
theorem c9_pool_semantics (p : BufferPool) (b : Buffer) :
    ((p.recycle_byffer b).get_buffer).1 = b.set_len MAX_BUFFER_SIZE
    ∧ ((p.recycle_byffer b).get_buffer).2.queue = p.queue
    ∧ (BufferPool.get_buffer ⟨[]⟩).1 = Buffer.default
    ∧ Buffer.default.len = MAX_BUFFER_SIZE
    ∧ (∀ i, Buffer.default.buf i = 0)
    ∧ (b.set_len MAX_BUFFER_SIZE).len = MAX_BUFFER_SIZE :=
  ⟨by simp [BufferPool.recycle_byffer, BufferPool.get_buffer,
        List.concat_eq_append, List.getLastD_concat],
   by simp [BufferPool.recycle_byffer, BufferPool.get_buffer,
        List.concat_eq_append, List.dropLast_concat],
   rfl, rfl, fun _ => rfl, rfl⟩

/-- Witness for C9 at a concrete pool and buffer. -/
theorem c9_pool_semantics_witness :
    ((BufferPool.recycle_byffer ⟨[]⟩ (Buffer.default.set_len 5)).get_buffer).1 =
      (Buffer.default.set_len 5).set_len MAX_BUFFER_SIZE
    ∧ ((BufferPool.recycle_byffer ⟨[]⟩
        (Buffer.default.set_len 5)).get_buffer).2.queue =
        (⟨[]⟩ : BufferPool).queue :=
  ⟨(c9_pool_semantics ⟨[]⟩ (Buffer.default.set_len 5)).1,
   (c9_pool_semantics ⟨[]⟩ (Buffer.default.set_len 5)).2.1⟩

/-- Claim C10: `Packet` equality and comparison are determined solely by
`exit_time` (two packets with equal release times compare equal whatever
their destinations or buffers), and the comparison is reversed — an earlier
`exit_time` compares as `gt` — which is what turns a max-heap into an
earliest-due-first queue. -/
theorem c10_ordering_by_exit_time :
    (∀ a b : Packet, Packet.beq a b = true ↔ a.exit_time = b.exit_time)
    ∧ (∀ a b : Packet, Packet.cmp a b = Ordering.eq ↔ a.exit_time = b.exit_time)
    ∧ (∀ a b : Packet, Packet.cmp a b = Ordering.gt ↔ a.exit_time < b.exit_time)
    ∧ (∀ a b : Packet, Packet.cmp a b = Ordering.lt ↔ b.exit_time < a.exit_time)
    ∧ (∀ (d1 d2 : SockAddrV4) (bf1 bf2 : Buffer) (t : Nat),
        Packet.beq ⟨d1, bf1, t⟩ ⟨d2, bf2, t⟩ = true
        ∧ Packet.cmp ⟨d1, bf1, t⟩ ⟨d2, bf2, t⟩ = Ordering.eq) := by
  refine ⟨fun a b => ?_, fun a b => ?_, fun a b => ?_, fun a b => ?_,
    fun d1 d2 bf1 bf2 t => ⟨?_, ?_⟩⟩
  · simp [Packet.beq]
  · simpa [Packet.cmp, Nat.compare_eq_eq] using eq_comm
  · simpa [Packet.cmp] using Nat.compare_eq_gt
  · simpa [Packet.cmp] using Nat.compare_eq_lt
  · simp [Packet.beq]
  · simp [Packet.cmp, Nat.compare_eq_eq]

/-- Witness for C10: two packets with equal release times but different
destinations and buffers compare equal, and the packet with the earlier
release time compares as the greater. -/
theorem c10_ordering_by_exit_time_witness :
    Packet.beq ⟨⟨⟨1, 2, 3, 4⟩, 5⟩, Buffer.default, 42⟩
        ⟨⟨⟨9, 8, 7, 6⟩, 1⟩, Buffer.default.set_len 3, 42⟩ = true
    ∧ Packet.cmp ⟨⟨⟨1, 2, 3, 4⟩, 5⟩, Buffer.default, 10⟩
        ⟨⟨⟨9, 8, 7, 6⟩, 1⟩, Buffer.default, 20⟩ = Ordering.gt :=
  ⟨(c10_ordering_by_exit_time.2.2.2.2 ⟨⟨1, 2, 3, 4⟩, 5⟩ ⟨⟨9, 8, 7, 6⟩, 1⟩
      Buffer.default (Buffer.default.set_len 3) 42).1,
   (c10_ordering_by_exit_time.2.2.1 _ _).mpr (by decide)⟩

/-- Claim C3, counterexample: a datagram discarded by the Bernoulli drop
sample does NOT have its buffer recycled back to the pool. Starting from a
pool holding one buffer, the drop branch ends the iteration with an empty
pool — the drawn buffer is simply freed (the source's drop branch only logs;
`recycle_byffer` is never called in the receive loop) — though indeed no
packet is enqueued. -/
theorem c3_dropped_buffer_not_recycled :
    (ingest_step true 0 0 ⟨⟨10, 0, 0, 1⟩, 4000⟩ [1, 2, 3, 4, 5, 6, 7]
        ⟨[Buffer.default]⟩ Queue.new).1.queue = []
    ∧ (ingest_step true 0 0 ⟨⟨10, 0, 0, 1⟩, 4000⟩ [1, 2, 3, 4, 5, 6, 7]
        ⟨[Buffer.default]⟩ Queue.new).2 = [] :=
  ⟨rfl, rfl⟩

/-- Claim C3, amended: every received datagram that is not enqueued — because
the drop sample discarded it or because `Packet.create` failed — has its
buffer dropped (freed), not returned to the Buffer Pool: the iteration ends
with the pool exactly as `get_buffer` left it (the drawn buffer is gone for
good), and no Packet is pushed to the Delivery Queue. -/
theorem c3_not_enqueued_buffer_discarded (dropSample : Bool) (delay now : Nat)
    (addr : SockAddrV4) (datagram : List Nat) (pool : BufferPool)
    (queue : Queue)
    (h : dropSample = true ∨
      (Packet.create addr ((pool.get_buffer).1.recv_from datagram)
          datagram.length (now + delay)).toOption = none) :
    ingest_step dropSample delay now addr datagram pool queue =
      ((pool.get_buffer).2, queue) := by
  unfold ingest_step
  cases dropSample with
  | true => simp
  | false =>
    rcases h with h | h
    · exact absurd h (by simp)
    · simp only [Bool.false_eq_true, if_false]
      cases hc : Packet.create addr ((pool.get_buffer).1.recv_from datagram)
          datagram.length (now + delay) with
      | ok pkt => rw [hc] at h; simp [Except.toOption] at h
      | error e => simp [hc]

/-- Witness for the amended C3: a dropped datagram with a one-buffer pool. -/
theorem c3_not_enqueued_buffer_discarded_witness :
    (true = true ∨
      (Packet.create ⟨⟨10, 0, 0, 1⟩, 4000⟩
          ((BufferPool.get_buffer ⟨[Buffer.default]⟩).1.recv_from [1, 2, 3])
          3 5).toOption = none)
    ∧ ingest_step true 5 0 ⟨⟨10, 0, 0, 1⟩, 4000⟩ [1, 2, 3] ⟨[Buffer.default]⟩
        Queue.new = ((BufferPool.get_buffer ⟨[Buffer.default]⟩).2, Queue.new) :=
  ⟨Or.inl rfl,
   c3_not_enqueued_buffer_discarded true 5 0 ⟨⟨10, 0, 0, 1⟩, 4000⟩ [1, 2, 3]
     ⟨[Buffer.default]⟩ Queue.new (Or.inl rfl)⟩

/-- Claim C4: for a received datagram of length at least 6 written into a
full-capacity pool buffer, `Packet.create` succeeds; the packet's destination
is decoded from the datagram's first 6 bytes (4 address octets then a
big-endian port), its buffer's first 6 bytes hold the original sender's
address and port in big-endian order, bytes `[6, L)` are unchanged from the
datagram, the buffer's logical length is `L`, and the release time is the one
passed in. -/
theorem c4_header_rewrite (S : SockAddrV4) (d : List Nat) (b0 : Buffer)
    (t : Nat) (hlen : 6 ≤ d.length) (hbuf : b0.len = MAX_BUFFER_SIZE) :
    ∃ pkt : Packet,
      Packet.create S (b0.recv_from d) d.length t = .ok pkt
      ∧ pkt.dst = ⟨⟨d.getD 0 0, d.getD 1 0, d.getD 2 0, d.getD 3 0⟩,
                   d.getD 4 0 * 256 + d.getD 5 0⟩
      ∧ pkt.data.buf 0 = S.ip.o0 ∧ pkt.data.buf 1 = S.ip.o1
      ∧ pkt.data.buf 2 = S.ip.o2 ∧ pkt.data.buf 3 = S.ip.o3
      ∧ pkt.data.buf 4 = S.port / 256 ∧ pkt.data.buf 5 = S.port % 256
      ∧ (∀ i, 6 ≤ i → i < d.length → pkt.data.buf i = d.getD i 0)
      ∧ pkt.data.len = d.length
      ∧ pkt.exit_time = t := by
  have h6 : ¬ ((b0.recv_from d).get.len < 6) := by
    simp [Buffer.recv_from, Buffer.get, hbuf, MAX_BUFFER_SIZE]
  unfold Packet.create
  unfold get_dst
  rw [if_neg h6]
  refine ⟨_, rfl, ?_, ?_, ?_, ?_, ?_, ?_, ?_, ?_, rfl, rfl⟩
  · show (⟨⟨(b0.recv_from d).get.byte 0, (b0.recv_from d).get.byte 1,
        (b0.recv_from d).get.byte 2, (b0.recv_from d).get.byte 3⟩,
        (b0.recv_from d).get.byte 4 * 256 + (b0.recv_from d).get.byte 5⟩ :
      SockAddrV4) = _
    simp only [Buffer.recv_from, Buffer.get]
    rw [getD_default_irrelevant d 0 (by omega),
      getD_default_irrelevant d 1 (by omega),
      getD_default_irrelevant d 2 (by omega),
      getD_default_irrelevant d 3 (by omega),
      getD_default_irrelevant d 4 (by omega),
      getD_default_irrelevant d 5 (by omega)]
  · rfl
  · rfl
  · rfl
  · rfl
  · rfl
  · rfl
  · intro i h6i hilen
    show (if i = 0 then S.ip.o0 else if i = 1 then S.ip.o1
      else if i = 2 then S.ip.o2 else if i = 3 then S.ip.o3
      else if i = 4 then S.port / 256 else if i = 5 then S.port % 256
      else (b0.recv_from d).buf i) = d.getD i 0
    rw [if_neg (by omega), if_neg (by omega), if_neg (by omega),
      if_neg (by omega), if_neg (by omega), if_neg (by omega)]
    show d.getD i (b0.buf i) = d.getD i 0
    exact getD_default_irrelevant d i hilen _ _

/-- Witness for C4 at the spec's example datagram: destination decodes to
192.168.1.5:9000 once sender 10.0.0.1:4000 relays it. -/
theorem c4_header_rewrite_witness :
    6 ≤ ([192, 168, 1, 5, 35, 40, 170, 187, 204, 221] : List Nat).length
    ∧ Buffer.default.len = MAX_BUFFER_SIZE
    ∧ (Packet.create ⟨⟨10, 0, 0, 1⟩, 4000⟩
        (Buffer.default.recv_from [192, 168, 1, 5, 35, 40, 170, 187, 204, 221])
        ([192, 168, 1, 5, 35, 40, 170, 187, 204, 221] : List Nat).length
        0).toOption.map Packet.dst = some ⟨⟨192, 168, 1, 5⟩, 9000⟩ := by
  obtain ⟨pkt, hok, hdst, -⟩ := c4_header_rewrite ⟨⟨10, 0, 0, 1⟩, 4000⟩
    [192, 168, 1, 5, 35, 40, 170, 187, 204, 221] Buffer.default 0
    (by decide) rfl
  refine ⟨by decide, rfl, ?_⟩
  rw [hok]
  show some pkt.dst = _
  rw [hdst]
  rfl

/-- Claim C7, counterexample: in the steady-state loop, a `recv_from` failure
other than would-block hits `panic!("Error while reading datagram.")` — the
process aborts mid-loop, so not every receive failure is recovered or treated
as backpressure. -/
theorem c7_recv_error_aborts :
    recv_match RecvResult.err = RecvOutcome.panics :=
  rfl

/-- Claim C7, amended: in steady state, header-parse failures are recovered
(the datagram is discarded, the loop continues) and permanent transmit errors
are logged and the drain continues, while would-block on receive merely stops
ingesting; but the receive path is NOT panic-free: a non-would-block
`recv_from` error, or a sender that is not IPv4, aborts the process mid-loop
(as do `poll`/`reregister` failures via `expect`/`unwrap`). -/
theorem c7_failure_handling :
    (∀ len addr, recv_match (RecvResult.ok len (SockAddr.v4 addr)) =
        RecvOutcome.received len addr)
    ∧ recv_match RecvResult.wouldBlock = RecvOutcome.stop
    ∧ recv_match RecvResult.err = RecvOutcome.panics
    ∧ (∀ len, recv_match (RecvResult.ok len SockAddr.v6) = RecvOutcome.panics)
    ∧ (∀ (addr : SockAddrV4) (delay now : Nat) (datagram : List Nat)
        (pool : BufferPool) (queue : Queue) (e : PacketError),
        Packet.create addr ((pool.get_buffer).1.recv_from datagram)
            datagram.length (now + delay) = .error e →
        ingest_step false delay now addr datagram pool queue =
          ((pool.get_buffer).2, queue))
    ∧ (∀ (now : Nat) (trace : List SendResult) (p : Packet) (q : Queue)
        (pool : BufferPool), p.exit_time ≤ now →
        process_queue now (SendResult.err :: trace) (p :: q) pool =
          process_queue now trace (p :: q) pool) := by
  refine ⟨fun _ _ => rfl, rfl, rfl, fun _ => rfl, ?_, ?_⟩
  · intro addr delay now datagram pool queue e hc
    unfold ingest_step
    simp only [Bool.false_eq_true, if_false]
    rw [hc]
  · intro now trace p q pool hdue
    simp [process_queue, hdue]

/-- Witness for the amended C7: a parse failure (short pool buffer) is
recovered and a permanent transmit error continues the drain. -/
theorem c7_failure_handling_witness :
    Packet.create ⟨⟨10, 0, 0, 1⟩, 4000⟩
        ((BufferPool.get_buffer ⟨[Buffer.default.set_len 3]⟩).1.recv_from
          [1, 2]) ([1, 2] : List Nat).length (0 + 9)
      = .error PacketError.Unknown
    ∧ ingest_step false 9 0 ⟨⟨10, 0, 0, 1⟩, 4000⟩ [1, 2]
        ⟨[Buffer.default.set_len 3]⟩ Queue.new =
        ((BufferPool.get_buffer ⟨[Buffer.default.set_len 3]⟩).2, Queue.new)
    ∧ examplePacket.exit_time ≤ 3
    ∧ process_queue 3 [SendResult.err] [examplePacket] ⟨[]⟩ =
        process_queue 3 [] [examplePacket] ⟨[]⟩ :=
  ⟨rfl,
   c7_failure_handling.2.2.2.2.1 ⟨⟨10, 0, 0, 1⟩, 4000⟩ 9 0 [1, 2]
     ⟨[Buffer.default.set_len 3]⟩ Queue.new PacketError.Unknown rfl,
   by decide,
   c7_failure_handling.2.2.2.2.2 3 [] examplePacket [] ⟨[]⟩ (by decide)⟩

/-- Claim C8, counterexample: `Buffer::set_len` performs no bounds check, so
the operation does not preserve the invariant `len ≤ capacity`: setting the
logical length to 65536 on a default buffer exceeds the 65535-byte capacity. -/
theorem c8_set_len_unchecked :
    MAX_BUFFER_SIZE < (Buffer.default.set_len (MAX_BUFFER_SIZE + 1)).len := by
  decide

/-- Claim C8, amended: construction establishes `len ≤ capacity`, recycling
re-establishes it (every buffer a recycle adds to the pool satisfies it), and
reading through `get` exposes exactly the logical-length view — parsing the
valid view depends only on bytes below the logical length. `set_len` itself
is unchecked and preserves the invariant exactly when the requested length is
at most the capacity, which holds at every call site in the program. -/
theorem c8_invariant_amended :
    Buffer.default.len ≤ MAX_BUFFER_SIZE
    ∧ (∀ (b : Buffer) (l : Nat), l ≤ MAX_BUFFER_SIZE →
        (b.set_len l).len ≤ MAX_BUFFER_SIZE)
    ∧ (∀ (p : BufferPool) (b b' : Buffer),
        b' ∈ (p.recycle_byffer b).queue →
        b' ∈ p.queue ∨ b'.len ≤ MAX_BUFFER_SIZE)
    ∧ (∀ b : Buffer, (Buffer.get b).len = b.len)
    ∧ (∀ b b' : Buffer, b.len = b'.len →
        (∀ i, i < b.len → b.buf i = b'.buf i) →
        get_dst b.get = get_dst b'.get) := by
  refine ⟨le_refl _, fun b l h => h, ?_, fun b => rfl, ?_⟩
  · intro p b b' h
    unfold BufferPool.recycle_byffer at h
    rw [List.concat_eq_append, List.mem_append] at h
    rcases h with h | h
    · exact Or.inl h
    · simp only [List.mem_singleton] at h
      subst h
      exact Or.inr (le_refl _)
  · intro b b' hlen hbytes
    unfold get_dst Buffer.get
    by_cases h6 : b.len < 6
    · rw [if_pos h6, if_pos (hlen ▸ h6)]
    · rw [if_neg h6, if_neg (hlen ▸ h6)]
      dsimp only
      rw [hbytes 0 (by omega), hbytes 1 (by omega), hbytes 2 (by omega),
        hbytes 3 (by omega), hbytes 4 (by omega), hbytes 5 (by omega)]

/-- Witness for the amended C8: a concrete in-range `set_len` keeps the
invariant, and parsing a buffer's valid view is unchanged when only bytes
beyond the logical length differ. -/
theorem c8_invariant_amended_witness :
    3 ≤ MAX_BUFFER_SIZE
    ∧ (Buffer.default.set_len 3).len ≤ MAX_BUFFER_SIZE
    ∧ get_dst (Buffer.default.set_len 8).get =
        get_dst (Buffer.mk (fun i => if i < 8 then 0 else 7) 8).get :=
  ⟨by decide,
   c8_invariant_amended.2.1 Buffer.default 3 (by decide),
   c8_invariant_amended.2.2.2.2 (Buffer.default.set_len 8)
     ⟨fun i => if i < 8 then 0 else 7, 8⟩ rfl
     (fun i hi => by
       show (0 : Nat) = if i < 8 then 0 else 7
       exact (if_pos hi).symm)⟩

end ShuffleRouter
